import Mathlib

/-!
Verification development for the desktop-delight file organizer
(Rust/Tauri sources under `src/src-tauri/src/`).

The Rust core is shallowly embedded as executable Lean definitions:

* file contents are `List Nat` (byte values), paths are `/`-separated
  strings, machine integers are `Nat`/`Int`;
* the file system is an explicit `FS` state (a set of file paths plus a
  set of directory paths); whether a `rename`/`copy` syscall fails
  (e.g. cross-device) is part of the state, so the fallback logic in the
  sources can be analysed;
* the SQLite-backed history table is a `DB` state; `ORDER BY priority`
  clauses are modelled with a stable merge sort;
* the external regex crate is an oracle parameter
  `rc : String → Option (String → Bool)` (`Regex::new` returning
  `Option`), and the external `xxh3_64` digest is idealized as the byte
  sequence fed to it (collision-free abstraction: equal inputs give
  equal digests, which is exactly what the code relies on);
* `serde_json::from_str` is an oracle parameter
  `parse : String → Except String Json` over a small JSON value type.

Fallible Rust functions returning `Result<T, String>` become
`Except String T` (possibly paired with the updated state).
-/

namespace DesktopDelight

/-! ## String primitives

The built-in `String.toLower`, `String.splitOn` and friends are opaque
to kernel reduction, so the handful of string operations the sources
use are modelled directly on the character lists. Rust's
`str::to_lowercase` is modelled for the ASCII range (every string the
engine lowercases — extensions, operator names, condition values — is
compared case-insensitively only on ASCII letters). -/

def lowerChar (c : Char) : Char :=
  if 65 ≤ c.toNat ∧ c.toNat ≤ 90 then Char.ofNat (c.toNat + 32) else c

def strLower (s : String) : String := ⟨s.data.map lowerChar⟩

/-- Whether the first list is a leading segment of the second. -/
def leadsWith [DecidableEq α] : List α → List α → Bool
  | [], _ => true
  | _ :: _, [] => false
  | p :: ps, x :: xs => if p = x then leadsWith ps xs else false

def strStartsWith (s pat : String) : Bool := leadsWith pat.data s.data

def strEndsWith (s pat : String) : Bool := leadsWith pat.data.reverse s.data.reverse

def strTake (s : String) (n : Nat) : String := ⟨s.data.take n⟩

def strDrop (s : String) (n : Nat) : String := ⟨s.data.drop n⟩

def splitOnChar (sep : Char) : List Char → List (List Char)
  | [] => [[]]
  | c :: cs =>
    match splitOnChar sep cs with
    | [] => if c = sep then [[], []] else [[c]]
    | h :: t => if c = sep then [] :: h :: t else (c :: h) :: t

def strSplitOnChar (sep : Char) (s : String) : List String :=
  (splitOnChar sep s.data).map (fun l => ⟨l⟩)

def joinSep (sep : String) : List String → String
  | [] => ""
  | [x] => x
  | x :: y :: t => x ++ sep ++ joinSep sep (y :: t)

/-! ## Path model

Paths are plain strings; `PathBuf::join` and `Path::parent` are modelled
on `/`-separated components. A single-component relative path is treated
as parentless (Rust returns `Some("")` there; no claim depends on it). -/

def pathJoin (base name : String) : String :=
  if base = "" then name else base ++ "/" ++ name

def pathParent (p : String) : Option String :=
  let parts := strSplitOnChar '/' p
  if parts.length ≤ 1 then none
  else some (joinSep "/" parts.dropLast)

def pathFileName (p : String) : String :=
  (strSplitOnChar '/' p).getLastD ""

/-! ## Classifier (`src/src-tauri/src/services/classifier.rs`) -/

inductive FileCategory where
  | images
  | documents
  | videos
  | music
  | archives
  | installers
  | code
  | others
deriving DecidableEq, Repr

/-- The extension lists of the match arms of `classify_extension`. -/
def imageExtensions : List String :=
  [".jpg", ".jpeg", ".png", ".gif", ".bmp", ".svg", ".webp", ".ico", ".psd",
   ".ai", ".tiff", ".raw", ".heic"]

def documentExtensions : List String :=
  [".pdf", ".doc", ".docx", ".xls", ".xlsx", ".ppt", ".pptx", ".hwp", ".txt",
   ".rtf", ".odt", ".ods", ".odp", ".pages", ".numbers", ".key", ".epub"]

def videoExtensions : List String :=
  [".mp4", ".avi", ".mkv", ".mov", ".wmv", ".flv", ".webm", ".m4v", ".mpeg",
   ".mpg", ".3gp"]

def musicExtensions : List String :=
  [".mp3", ".wav", ".flac", ".aac", ".m4a", ".wma", ".ogg", ".opus", ".aiff",
   ".alac"]

def archiveExtensions : List String :=
  [".zip", ".rar", ".7z", ".tar", ".gz", ".bz2", ".xz", ".lz", ".lzma", ".cab",
   ".iso"]

def installerExtensions : List String :=
  [".exe", ".msi", ".dmg", ".pkg", ".deb", ".rpm", ".app", ".apk", ".appx"]

def codeExtensions : List String :=
  [".py", ".js", ".ts", ".tsx", ".jsx", ".html", ".css", ".scss", ".sass",
   ".less", ".java", ".cpp", ".c", ".h", ".hpp", ".cs", ".rs", ".go", ".rb",
   ".php", ".swift", ".kt", ".scala", ".json", ".xml", ".yaml", ".yml",
   ".toml", ".md", ".sh", ".bash", ".zsh", ".ps1", ".sql", ".r", ".m", ".lua",
   ".pl", ".vim", ".vue", ".svelte"]

/-- `classify_extension` from `classifier.rs`: lowercase the extension and
match it against the per-category extension lists, defaulting to Others. -/
def classify_extension (extension : String) : FileCategory :=
  let ext := strLower extension
  if imageExtensions.contains ext then .images
  else if documentExtensions.contains ext then .documents
  else if videoExtensions.contains ext then .videos
  else if musicExtensions.contains ext then .music
  else if archiveExtensions.contains ext then .archives
  else if installerExtensions.contains ext then .installers
  else if codeExtensions.contains ext then .code
  else .others

/-- Every extension appearing in the classifier's built-in match table. -/
def classifier_extensions : List String :=
  imageExtensions ++ documentExtensions ++ videoExtensions ++ musicExtensions
    ++ archiveExtensions ++ installerExtensions ++ codeExtensions

/-- The lowercase category tag, as produced both by
`format!("\x7b:?\x7d", category).to_lowercase()` in `rules.rs` and by the
serde `rename_all = "lowercase"` serialization of `FileCategory`. -/
def categoryStr : FileCategory → String
  | .images => "images"
  | .documents => "documents"
  | .videos => "videos"
  | .music => "music"
  | .archives => "archives"
  | .installers => "installers"
  | .code => "code"
  | .others => "others"

/-! ## Default extension-to-category seed
(`insert_default_extension_mappings` in `src/src-tauri/src/database/mod.rs`):
the `(extension, category, target_folder)` triples inserted into the
`extension_mappings` table when it is empty. -/

def default_extension_mappings : List (String × String × String) :=
  [(".jpg", "images", "Images"),
   (".jpeg", "images", "Images"),
   (".png", "images", "Images"),
   (".gif", "images", "Images"),
   (".bmp", "images", "Images"),
   (".svg", "images", "Images"),
   (".webp", "images", "Images"),
   (".ico", "images", "Images"),
   (".psd", "images", "Images"),
   (".ai", "images", "Images"),
   (".pdf", "documents", "Documents"),
   (".doc", "documents", "Documents"),
   (".docx", "documents", "Documents"),
   (".xls", "documents", "Documents"),
   (".xlsx", "documents", "Documents"),
   (".ppt", "documents", "Documents"),
   (".pptx", "documents", "Documents"),
   (".hwp", "documents", "Documents"),
   (".hwpx", "documents", "Documents"),
   (".txt", "documents", "Documents"),
   (".rtf", "documents", "Documents"),
   (".odt", "documents", "Documents"),
   (".mp4", "videos", "Videos"),
   (".avi", "videos", "Videos"),
   (".mkv", "videos", "Videos"),
   (".mov", "videos", "Videos"),
   (".wmv", "videos", "Videos"),
   (".flv", "videos", "Videos"),
   (".webm", "videos", "Videos"),
   (".mp3", "music", "Music"),
   (".wav", "music", "Music"),
   (".flac", "music", "Music"),
   (".aac", "music", "Music"),
   (".m4a", "music", "Music"),
   (".wma", "music", "Music"),
   (".ogg", "music", "Music"),
   (".zip", "archives", "Archives"),
   (".rar", "archives", "Archives"),
   (".7z", "archives", "Archives"),
   (".tar", "archives", "Archives"),
   (".gz", "archives", "Archives"),
   (".bz2", "archives", "Archives"),
   (".exe", "installers", "Installers"),
   (".msi", "installers", "Installers"),
   (".dmg", "installers", "Installers"),
   (".pkg", "installers", "Installers"),
   (".deb", "installers", "Installers"),
   (".rpm", "installers", "Installers"),
   (".py", "code", "Code"),
   (".js", "code", "Code"),
   (".ts", "code", "Code"),
   (".tsx", "code", "Code"),
   (".jsx", "code", "Code"),
   (".html", "code", "Code"),
   (".css", "code", "Code"),
   (".java", "code", "Code"),
   (".cpp", "code", "Code"),
   (".c", "code", "Code"),
   (".h", "code", "Code"),
   (".rs", "code", "Code"),
   (".go", "code", "Code"),
   (".json", "code", "Code"),
   (".xml", "code", "Code"),
   (".yaml", "code", "Code"),
   (".yml", "code", "Code"),
   (".md", "code", "Code")]

/-! ## File records and rules (`src/src-tauri/src/commands/rules.rs`,
`scanner.rs`)

The display-only `size_formatted` field of the Rust `FileInfo` (rendered
with floating-point formatting) is omitted: it is never consulted by the
engine logic. -/

structure FileInfo where
  path : String
  name : String
  extension : String
  size : Nat
  createdAt : String
  modifiedAt : String
  isDirectory : Bool
  isHidden : Bool
  category : FileCategory
deriving DecidableEq, Repr

structure Condition where
  field : String
  operator : String
  value : String
deriving DecidableEq, Repr

structure Rule where
  id : Option Int
  name : String
  priority : Int
  enabled : Bool
  conditions : List Condition
  conditionLogic : String
  actionType : String
  actionDestination : Option String
  actionRenamePattern : Option String
  createDateSubfolder : Bool
deriving DecidableEq, Repr

/-- Substring test on character lists, mirroring Rust `str::contains`
(the empty pattern matches everywhere). -/
def containsSeq [DecidableEq α] : List α → List α → Bool
  | [], pat => pat.isEmpty
  | x :: xs, pat => if leadsWith pat (x :: xs) then true else containsSeq xs pat

/-- Semantics of Rust `str::parse::<u64>()`: optional leading `+`, at
least one digit, all digits, value below `2^64`. -/
def parse_u64 (s : String) : Option Nat :=
  let t := if strStartsWith s "+" then strDrop s 1 else s
  if t.length = 0 then none
  else if t.data.all Char.isDigit then
    let n := t.data.foldl (fun a c => a * 10 + (c.toNat - 48)) 0
    if n < 2 ^ 64 then some n else none
  else none

/-- The field extraction at the top of `evaluate_condition`; `none`
models the early `return false` for an unknown field name. -/
def fieldValue? (file : FileInfo) : String → Option String
  | "name" => some file.name
  | "extension" => some file.extension
  | "size" => some (toString file.size)
  | "createdDate" => some file.createdAt
  | "modifiedDate" => some file.modifiedAt
  | _ => none

/-- `evaluate_condition` from `rules.rs`. The regex crate is the oracle
`rc`: `rc pat = none` models `Regex::new(pat)` failing, and
`rc pat = some m` gives the compiled matcher. -/
def evaluate_condition (rc : String → Option (String → Bool))
    (file : FileInfo) (condition : Condition) : Bool :=
  match fieldValue? file condition.field with
  | none => false
  | some fv =>
    match condition.operator with
    | "equals" => strLower fv == strLower condition.value
    | "contains" => containsSeq (strLower fv).data (strLower condition.value).data
    | "startsWith" => strStartsWith (strLower fv) (strLower condition.value)
    | "endsWith" => strEndsWith (strLower fv) (strLower condition.value)
    | "greaterThan" =>
      match parse_u64 fv, parse_u64 condition.value with
      | some a, some b => decide (b < a)
      | _, _ => false
    | "lessThan" =>
      match parse_u64 fv, parse_u64 condition.value with
      | some a, some b => decide (a < b)
      | _, _ => false
    | "matches" =>
      match rc condition.value with
      | some m => m fv
      | none => false
    | _ => false

/-- `evaluate_rule` from `rules.rs`: an empty condition list never
matches; otherwise AND means all conditions hold and anything else
(the stored logic is "AND" or "OR") means at least one holds. -/
def evaluate_rule (rc : String → Option (String → Bool))
    (file : FileInfo) (rule : Rule) : Bool :=
  let results := rule.conditions.map (evaluate_condition rc file)
  if results.isEmpty then false
  else if rule.conditionLogic == "AND" then results.all (fun r => r)
  else results.any (fun r => r)

/-- `format_action_preview` from `rules.rs`. -/
def format_action_preview (rule : Rule) (file : FileInfo) : String :=
  match rule.actionType with
  | "move" =>
    match rule.actionDestination with
    | some dest => "이동: " ++ file.name ++ " → " ++ dest
    | none => "이동: " ++ file.name
  | "copy" =>
    match rule.actionDestination with
    | some dest => "복사: " ++ file.name ++ " → " ++ dest
    | none => "복사: " ++ file.name
  | "rename" =>
    match rule.actionRenamePattern with
    | some pattern => "이름변경: " ++ file.name ++ " → " ++ pattern
    | none => "이름변경: " ++ file.name
  | "delete" => "삭제: " ++ file.name
  | _ => "알 수 없는 작업: " ++ file.name

/-! ## File-system state

`files`/`dirs` are the existing paths. Failure of the underlying
syscalls is part of the state: `rename src dst` fails when the pair is
in `crossDevice` (the typical cross-device case) or the source is
missing, surfacing `renameErrMsg` (the OS error rendered by
`e.to_string()`); `copy` fails for pairs in `copyFailures` or a missing
source, surfacing `copyErrMsg`. `fs::create_dir_all` is modelled as
always succeeding. -/

structure FS where
  files : List String
  dirs : List String
  crossDevice : List (String × String)
  copyFailures : List (String × String)
  renameErrMsg : String
  copyErrMsg : String
  removeErrMsg : String
deriving DecidableEq, Repr

def FS.hasFile (fs : FS) (p : String) : Bool := fs.files.contains p

def FS.pathExists (fs : FS) (p : String) : Bool :=
  fs.files.contains p || fs.dirs.contains p

def FS.addFile (fs : FS) (p : String) : FS :=
  if fs.files.contains p then fs else { fs with files := fs.files ++ [p] }

def FS.delFile (fs : FS) (p : String) : FS :=
  { fs with files := fs.files.filter (fun q => q != p) }

def FS.rename (fs : FS) (src dst : String) : Except String FS :=
  if fs.hasFile src then
    if fs.crossDevice.contains (src, dst) then .error fs.renameErrMsg
    else .ok ((fs.delFile src).addFile dst)
  else .error fs.renameErrMsg

def FS.copy (fs : FS) (src dst : String) : Except String FS :=
  if fs.hasFile src && !(fs.copyFailures.contains (src, dst)) then
    .ok (fs.addFile dst)
  else .error fs.copyErrMsg

def FS.removeFile (fs : FS) (p : String) : Except String FS :=
  if fs.hasFile p then .ok (fs.delFile p) else .error fs.removeErrMsg

/-! ## Rule-engine action execution (`execute_action` in `rules.rs`)

The move arm is a faithful translation of

```
fs::rename(&source_path, &final_path).map_err(|e| \x7b
    if let Err(copy_err) = fs::copy(&source_path, &final_path) \x7b
        return format!("이동 실패: \x7b\x7d", copy_err);
    \x7d
    let _ = fs::remove_file(&source_path);
    e.to_string()
\x7d)?;
```

so when the rename fails the whole expression is an `Err` even if the
fallback copy succeeded and the source file was deleted. `trash::delete`
is modelled as removing the file from the live file system.
`&file.modified_at[..7]` is modelled by `String.take 7` (every timestamp
the scanner renders, including the "Unknown" fallback, has at least 7
bytes, so the Rust slice cannot panic there). -/

def execute_action (rule : Rule) (file : FileInfo) (fs : FS) :
    Except String String × FS :=
  let sourcePath := file.path
  match rule.actionType with
  | "move" =>
    match rule.actionDestination with
    | none => (.error "대상 폴더가 지정되지 않았습니다", fs)
    | some destFolder =>
      let destPath :=
        if rule.createDateSubfolder then pathJoin destFolder (strTake file.modifiedAt 7)
        else destFolder
      let finalPath := pathJoin destPath file.name
      match fs.rename sourcePath finalPath with
      | .ok fs2 => (.ok finalPath, fs2)
      | .error e =>
        match fs.copy sourcePath finalPath with
        | .error copyErr => (.error ("이동 실패: " ++ copyErr), fs)
        | .ok fs2 =>
          match fs2.removeFile sourcePath with
          | .ok fs3 => (.error e, fs3)
          | .error _ => (.error e, fs2)
  | "copy" =>
    match rule.actionDestination with
    | none => (.error "대상 폴더가 지정되지 않았습니다", fs)
    | some destFolder =>
      let destPath :=
        if rule.createDateSubfolder then pathJoin destFolder (strTake file.modifiedAt 7)
        else destFolder
      let finalPath := pathJoin destPath file.name
      match fs.copy sourcePath finalPath with
      | .ok fs2 => (.ok finalPath, fs2)
      | .error e => (.error e, fs)
  | "delete" =>
    match fs.removeFile sourcePath with
    | .ok fs2 => (.ok file.path, fs2)
    | .error e => (.error e, fs)
  | _ => (.error "지원되지 않는 작업입니다", fs)

/-- The per-file move of `execute_unified` (`rules.rs`, the
`fs::rename`/`fs::copy`/`fs::remove_file` cascade): returns whether the
file counted as moved, the error strings pushed, and the new state. On a
successful fallback copy the file counts as moved even when deleting the
source fails (that failure is only reported in the error list). -/
def unified_move_file (fs : FS) (src dst name : String) :
    Bool × List String × FS :=
  match fs.rename src dst with
  | .ok fs2 => (true, [], fs2)
  | .error _ =>
    match fs.copy src dst with
    | .ok fs2 =>
      match fs2.removeFile src with
      | .ok fs3 => (true, [], fs3)
      | .error e => (true, ["원본 삭제 실패 " ++ name ++ ": " ++ e], fs2)
    | .error e => (false, ["파일 이동 실패 " ++ name ++ ": " ++ e], fs)

/-! ## Default rules and the unified organization preview
(`rules.rs`: `DefaultRule`, `get_rules_internal`,
`get_default_rules_internal`, `preview_unified_internal`). -/

structure DefaultRule where
  id : Int
  category : String
  enabled : Bool
  destination : String
  createDateSubfolder : Bool
  priority : Int
deriving DecidableEq, Repr

structure UnifiedPreview where
  file : FileInfo
  matchType : String
  rule : Option Rule
  defaultRule : Option DefaultRule
  action : String
  destination : String
deriving DecidableEq, Repr

/-- `get_rules_internal`: the rules query uses
`ORDER BY priority DESC`; the relative order of equal priorities is
unspecified in SQLite, modelled here by a stable sort of the stored
list. -/
def get_rules_internal (stored : List Rule) : List Rule :=
  stored.mergeSort (fun a b => decide (b.priority ≤ a.priority))

/-- `get_default_rules_internal`: `ORDER BY priority ASC`. -/
def get_default_rules_internal (stored : List DefaultRule) : List DefaultRule :=
  stored.mergeSort (fun a b => decide (a.priority ≤ b.priority))

/-- `Path::extension()` composed with the
`format!(".\x7b\x7d", e.to_lowercase())` normalization: the lowercased
part after the last dot with a leading dot, or the empty string when the
name has no dot. (The engine only calls this after skipping dotfiles.) -/
def file_extension (name : String) : String :=
  if name.data.contains '.' then "." ++ strLower ((strSplitOnChar '.' name).getLastD "")
  else ""

/-- The `FileInfo` record built for each directory entry in
`preview_unified_internal`. Timestamps are carried by the entry. -/
structure DirEntry where
  name : String
  isDir : Bool
  size : Nat
  createdAt : String
  modifiedAt : String
deriving DecidableEq, Repr

def mkFileInfo (sourcePath : String) (e : DirEntry) : FileInfo :=
  let ext := file_extension e.name
  { path := pathJoin sourcePath e.name
    name := e.name
    extension := ext
    size := e.size
    createdAt := e.createdAt
    modifiedAt := e.modifiedAt
    isDirectory := false
    isHidden := strStartsWith e.name "."
    category := classify_extension ext }

/-- The per-file verdict of `preview_unified_internal`: first enabled
custom rule that evaluates true (the lists are already filtered to
enabled rules), otherwise the first enabled default rule whose category
tag equals the file's category tag, otherwise no plan entry. -/
def unified_file_preview (rc : String → Option (String → Bool))
    (enabledCustom : List Rule) (enabledDefault : List DefaultRule)
    (source : String) (fi : FileInfo) : Option UnifiedPreview :=
  match enabledCustom.find? (fun r => evaluate_rule rc fi r) with
  | some rule =>
    some { file := fi, matchType := "custom", rule := some rule,
           defaultRule := none,
           action := format_action_preview rule fi,
           destination := rule.actionDestination.getD "" }
  | none =>
    match enabledDefault.find? (fun r => r.category == categoryStr fi.category) with
    | some dr =>
      some { file := fi, matchType := "default", rule := none,
             defaultRule := some dr,
             action := "이동: " ++ fi.name ++ " → " ++ dr.destination,
             destination := pathJoin source dr.destination }
    | none => none

/-- `preview_unified_internal`: fetch custom and default rules, keep the
enabled ones, then walk the directory entries skipping subdirectories
and dotfiles. -/
def preview_unified_internal (rc : String → Option (String → Bool))
    (storedRules : List Rule) (storedDefaults : List DefaultRule)
    (sourcePath : String) (entries : List DirEntry) : List UnifiedPreview :=
  let enabledCustom := (get_rules_internal storedRules).filter (fun r => r.enabled)
  let enabledDefault :=
    (get_default_rules_internal storedDefaults).filter (fun r => r.enabled)
  entries.filterMap (fun e =>
    if e.isDir then none
    else if strStartsWith e.name "." then none
    else unified_file_preview rc enabledCustom enabledDefault sourcePath
      (mkFileInfo sourcePath e))

/-- The verdict of the unified engine for one file, with rule fetching
and enabled-filtering composed in (the per-file slice of
`preview_unified_internal`). -/
def engine_verdict (rc : String → Option (String → Bool))
    (storedRules : List Rule) (storedDefaults : List DefaultRule)
    (sourcePath : String) (fi : FileInfo) : Option UnifiedPreview :=
  unified_file_preview rc
    ((get_rules_internal storedRules).filter (fun r => r.enabled))
    ((get_default_rules_internal storedDefaults).filter (fun r => r.enabled))
    sourcePath fi

/-! ## JSON values (`serde_json::Value` as used by the undo payloads) -/

inductive Json where
  | jnull : Json
  | jbool : Bool → Json
  | jnum : Int → Json
  | jstr : String → Json
  | jarr : List Json → Json
  | jobj : List (String × Json) → Json
deriving Repr

/-- Indexing `value["key"]`: serde returns `Null` for a missing key or a
non-object value. -/
def Json.get (j : Json) (key : String) : Json :=
  match j with
  | .jobj kvs =>
    match kvs.find? (fun kv => kv.1 == key) with
    | some kv => kv.2
    | none => .jnull
  | _ => .jnull

def Json.asStr : Json → Option String
  | .jstr s => some s
  | _ => none

def Json.asArr : Json → Option (List Json)
  | .jarr xs => some xs
  | _ => none

def Json.asBool : Json → Option Bool
  | .jbool b => some b
  | _ => none

def obrace : String := String.singleton (Char.ofNat 123)

def cbrace : String := String.singleton (Char.ofNat 125)

mutual

/-- Rendering of `serde_json::Value` (string escaping beyond the quotes
is not modelled; the payloads written by the commands contain none). -/
def Json.render : Json → String
  | .jnull => "null"
  | .jbool b => if b then "true" else "false"
  | .jnum n => toString n
  | .jstr s => "\"" ++ s ++ "\""
  | .jarr xs => "[" ++ Json.renderArr xs ++ "]"
  | .jobj kvs => obrace ++ Json.renderObj kvs ++ cbrace

def Json.renderArr : List Json → String
  | [] => ""
  | [x] => Json.render x
  | x :: xs => Json.render x ++ "," ++ Json.renderArr xs

def Json.renderObj : List (String × Json) → String
  | [] => ""
  | [kv] => "\"" ++ kv.1 ++ "\":" ++ Json.render kv.2
  | kv :: kvs =>
    "\"" ++ kv.1 ++ "\":" ++ Json.render kv.2 ++ "," ++ Json.renderObj kvs

end

/-- Rust `format!("\x7b:?\x7d", v)` on a `Vec<String>`. -/
def debugStrList (l : List String) : String :=
  "[" ++ joinSep ", " (l.map (fun s => "\"" ++ s ++ "\"")) ++ "]"

/-! ## History ledger (`src/src-tauri/src/database/mod.rs`,
`src/src-tauri/src/commands/history.rs`) -/

structure HistoryItem where
  id : Int
  operationType : String
  description : String
  details : Option String
  filesAffected : Int
  isUndone : Bool
  createdAt : String
deriving DecidableEq, Repr

structure DB where
  history : List HistoryItem
deriving DecidableEq, Repr

/-- `get_history_item`: `SELECT ... WHERE id = ?1`; the error is the
rendered `QueryReturnedNoRows`. -/
def get_history_item (db : DB) (id : Int) : Except String HistoryItem :=
  match db.history.find? (fun h => h.id == id) with
  | some item => .ok item
  | none => .error "Query returned no rows"

/-- `mark_history_undone`: `UPDATE history SET is_undone = 1 WHERE id = ?1`. -/
def mark_history_undone (db : DB) (id : Int) : DB :=
  { history :=
      db.history.map (fun h => if h.id == id then { h with isUndone := true } else h) }

/-- `add_history`: insert a row; the autoincrement id is modelled as
one past the current row count. -/
def add_history (db : DB) (opType description details : String) : DB :=
  { history :=
      db.history ++
        [{ id := Int.ofNat db.history.length + 1, operationType := opType,
           description := description, details := some details,
           filesAffected := 1, isUndone := false, createdAt := "" }] }

/-- Helper for `dedupFirst`: keep the elements not yet seen. -/
def dedupFirstAux [DecidableEq α] : List α → List α → List α
  | [], _ => []
  | x :: xs, seen =>
    if x ∈ seen then dedupFirstAux xs seen
    else x :: dedupFirstAux xs (x :: seen)

/-- Duplicate-free list of first occurrences, in order; models iterating
the keys of a hash map in a deterministic order (the Rust iteration
order is unspecified). -/
def dedupFirst [DecidableEq α] (l : List α) : List α := dedupFirstAux l []

/-- One pair of the organize-undo loop in `undo_operation`
(`history.rs`): move the file back from its new path to its original
path if it still exists, with the copy-then-delete-source fallback, and
collect error strings without aborting. `fs::create_dir_all` on the
original path's parent is modelled as always succeeding. -/
def undo_move_pair (acc : List String × FS) (moveItem : Json) :
    List String × FS :=
  match moveItem.asArr with
  | some arr =>
    if 2 ≤ arr.length then
      let originalPath := ((arr.getD 0 .jnull).asStr).getD ""
      let newPath := ((arr.getD 1 .jnull).asStr).getD ""
      if originalPath != "" && newPath != "" then
        if acc.2.hasFile newPath then
          match acc.2.rename newPath originalPath with
          | .ok fs2 => (acc.1, fs2)
          | .error _ =>
            match acc.2.copy newPath originalPath with
            | .error copyErr =>
              (acc.1 ++ ["Failed to move " ++ newPath ++ ": " ++ copyErr], acc.2)
            | .ok fs2 =>
              match fs2.removeFile newPath with
              | .ok fs3 => (acc.1, fs3)
              | .error _ => (acc.1, fs2)
        else acc
      else acc
    else acc
  | none => acc

/-- Remove a directory if it exists and is empty (`fs::remove_dir`, with
failures swallowed by the caller). -/
def FS.removeDirIfEmpty (fs : FS) (d : String) : FS :=
  if fs.dirs.contains d
      && !(fs.files.any (fun f => pathParent f == some d))
      && !(fs.dirs.any (fun f => f != d && pathParent f == some d)) then
    { fs with dirs := fs.dirs.filter (fun q => q != d) }
  else fs

/-- `cleanup_empty_folders` (`history.rs`): collect the parent folders
of the new paths of an organize payload (a hash set, modelled as a
first-occurrence deduplicated list), then best-effort remove each folder
and its parent. -/
def cleanup_empty_folders (undoData : Json) (fs : FS) : FS :=
  let folders :=
    match undoData.asArr with
    | some moves =>
      dedupFirst (moves.filterMap (fun (mi : Json) =>
        match mi.asArr with
        | some arr =>
          if 2 ≤ arr.length then ((arr.getD 1 .jnull).asStr).bind pathParent
          else none
        | none => none))
    | none => []
  folders.foldl (fun s d =>
    let s2 := s.removeDirIfEmpty d
    match pathParent d with
    | some parent => s2.removeDirIfEmpty parent
    | none => s2) fs

/-- `undo_operation` (`history.rs`): fetch the entry, refuse if already
undone, parse the payload (`parse` is the `serde_json::from_str`
oracle), dispatch on the payload's `action` tag, and only mark the entry
undone on the paths the source does. -/
def undo_operation (parse : String → Except String Json) (db : DB) (fs : FS)
    (id : Int) : Except String Unit × DB × FS :=
  match get_history_item db id with
  | .error e => (.error e, db, fs)
  | .ok item =>
    if item.isUndone then (.error "Operation has already been undone", db, fs)
    else
      match parse (item.details.getD "") with
      | .error e => (.error e, db, fs)
      | .ok undoData =>
        match ((undoData.get "action").asStr).getD "" with
        | "move" =>
          match (undoData.get "original_path").asStr with
          | none => (.error "Missing original_path", db, fs)
          | some originalPath =>
            match (undoData.get "new_path").asStr with
            | none => (.error "Missing new_path", db, fs)
            | some newPath =>
              if fs.hasFile newPath then
                match fs.rename newPath originalPath with
                | .error e => (.error e, db, fs)
                | .ok fs2 => (.ok (), mark_history_undone db id, fs2)
              else (.ok (), mark_history_undone db id, fs)
        | "copy" =>
          match (undoData.get "copied_path").asStr with
          | none => (.error "Missing copied_path", db, fs)
          | some copiedPath =>
            if fs.hasFile copiedPath then
              match fs.removeFile copiedPath with
              | .error e => (.error e, db, fs)
              | .ok fs2 => (.ok (), mark_history_undone db id, fs2)
            else (.ok (), mark_history_undone db id, fs)
        | "rename" =>
          match (undoData.get "original_path").asStr with
          | none => (.error "Missing original_path", db, fs)
          | some originalPath =>
            match (undoData.get "new_path").asStr with
            | none => (.error "Missing new_path", db, fs)
            | some newPath =>
              if fs.hasFile newPath then
                match fs.rename newPath originalPath with
                | .error e => (.error e, db, fs)
                | .ok fs2 => (.ok (), mark_history_undone db id, fs2)
              else (.ok (), mark_history_undone db id, fs)
        | "delete" =>
          if !(((undoData.get "to_trash").asBool).getD false) then
            (.error "Cannot undo permanent delete", db, fs)
          else
            (.error "Trash undo not implemented. Please restore from trash manually.",
              db, fs)
        | _ =>
          match undoData.asArr with
          | some moves =>
            let res := moves.foldl undo_move_pair ([], fs)
            let fs3 := cleanup_empty_folders undoData res.2
            if res.1.isEmpty then (.ok (), mark_history_undone db id, fs3)
            else
              (.error ("Some files could not be restored: " ++ debugStrList res.1),
                db, fs3)
          | none => (.error "Unknown action type or invalid undo data", db, fs)

/-! ## Direct rename (`rename_file` in
`src/src-tauri/src/commands/file_ops.rs`) -/

def rename_file (fs : FS) (db : DB) (path newName : String) :
    Except String String × FS × DB :=
  if !(fs.pathExists path) then
    (.error ("File does not exist: " ++ path), fs, db)
  else
    match pathParent path with
    | none => (.error "Cannot get parent directory", fs, db)
    | some parent =>
      let newPath := pathJoin parent newName
      if fs.pathExists newPath then
        (.error ("File already exists: " ++ newPath), fs, db)
      else
        let oldName := pathFileName path
        match fs.rename path newPath with
        | .error e => (.error e, fs, db)
        | .ok fs2 =>
          let undoData : Json :=
            .jobj [("original_path", .jstr path), ("new_path", .jstr newPath),
                   ("old_name", .jstr oldName), ("new_name", .jstr newName),
                   ("action", .jstr "rename")]
          (.ok newPath, fs2,
            add_history db "rename" ("이름 변경: " ++ oldName ++ " → " ++ newName)
              undoData.render)

/-! ## Content fingerprinter (`compute_file_hash`, identical in
`src/src-tauri/src/commands/analyzer.rs` and
`src/src-tauri/src/commands/folder_compare.rs`)

The file is a byte list. The function reads the first
`min(65536, file_size)` bytes, then — only when `file_size > 131072` —
the last 65536 bytes, appends the 8-byte little-endian file size, and
digests the concatenation with `xxh3_64`. The digest is abstracted as
the `hash` parameter applied to the concatenation. -/

def leBytes8 (n : Nat) : List Nat :=
  [n % 256, n / 256 % 256, n / 256 ^ 2 % 256, n / 256 ^ 3 % 256,
   n / 256 ^ 4 % 256, n / 256 ^ 5 % 256, n / 256 ^ 6 % 256, n / 256 ^ 7 % 256]

/-- The byte sequence `hasher_data` accumulated by `compute_file_hash`
before digesting. -/
def hasher_data (content : List Nat) : List Nat :=
  let fileSize := content.length
  let front := content.take (min 65536 fileSize)
  let back := if 131072 < fileSize then content.drop (fileSize - 65536) else []
  front ++ back ++ leBytes8 fileSize

def compute_file_hash (hash : List Nat → Nat) (content : List Nat) : Nat :=
  hash (hasher_data content)

/-! ## Duplicate detection (`find_duplicates` in `analyzer.rs`)

Files on disk are `(path, content)` pairs. The `xxh3_64` digest string
used as the grouping key is idealized as the digested byte sequence
itself (equal inputs give equal digests — the property the code relies
on; distinct inputs are taken to give distinct keys). The per-file
`FileInfo` decoration of each group member is dropped: a group carries
its member files directly. Rust `HashMap` iteration order is
unspecified; it is modelled as first-insertion key order. -/

structure SFile where
  path : String
  content : List Nat
deriving DecidableEq, Repr

def fileHashKey (f : SFile) : List Nat := hasher_data f.content

/-- Phase 1 guard: `metadata.len() > 0` — zero-length files are never
inserted into a size bucket. -/
def positiveFiles (files : List SFile) : List SFile :=
  files.filter (fun f => decide (0 < f.content.length))

/-- Phase 1: bucket the positive-size files by exact byte size. -/
def size_groups (files : List SFile) : List (Nat × List SFile) :=
  (dedupFirst ((positiveFiles files).map (fun f => f.content.length))).map
    (fun s => (s, (positiveFiles files).filter (fun f => f.content.length == s)))

/-- Phase 2 input: the members of the multi-member size buckets, the
only files that get fingerprinted (per-file hash errors, skipped in the
source, are not modelled: hashing a byte list cannot fail). -/
def hashedFiles (files : List SFile) : List SFile :=
  (((size_groups files).filter (fun g => decide (1 < g.2.length))).map
      (fun g => g.2)).flatten

/-- Phase 2: group the fingerprinted files by fingerprint. -/
def hash_groups (files : List SFile) : List (List Nat × List SFile) :=
  (dedupFirst ((hashedFiles files).map fileHashKey)).map
    (fun k => (k, (hashedFiles files).filter (fun f => fileHashKey f == k)))

structure DuplicateGroup where
  hash : List Nat
  size : Nat
  files : List SFile
deriving DecidableEq, Repr

def wastedSpace (g : DuplicateGroup) : Nat := g.size * (g.files.length - 1)

/-- Phases 3 and 4 of `find_duplicates`: keep the fingerprint groups
with at least two members, take the group size from the first member's
metadata (`unwrap_or(0)`), and sort by descending wasted space
`size * (count - 1)` with a stable sort. -/
def find_duplicates (files : List SFile) : List DuplicateGroup :=
  let groups :=
    ((hash_groups files).filter (fun g => decide (1 < g.2.length))).map
      (fun g =>
        { hash := g.1,
          size := ((g.2.head?).map (fun f => f.content.length)).getD 0,
          files := g.2 })
  groups.mergeSort (fun a b => decide (wastedSpace b ≤ wastedSpace a))

/-! ## Concrete fixtures used by counterexamples and witnesses -/

def c1Rule : Rule :=
  { id := some 1, name := "r", priority := 0, enabled := true,
    conditions := [{ field := "name", operator := "contains", value := "a" }],
    conditionLogic := "AND", actionType := "move",
    actionDestination := some "/dest", actionRenamePattern := none,
    createDateSubfolder := false }

def c1File : FileInfo :=
  { path := "/src/a.txt", name := "a.txt", extension := ".txt", size := 1,
    createdAt := "2024-01-01 00:00:00", modifiedAt := "2024-01-02 00:00:00",
    isDirectory := false, isHidden := false, category := .documents }

def c1FS : FS :=
  { files := ["/src/a.txt"], dirs := [],
    crossDevice := [("/src/a.txt", "/dest/a.txt")], copyFailures := [],
    renameErrMsg := "Invalid cross-device link (os error 18)",
    copyErrMsg := "copy error", removeErrMsg := "remove error" }

def c2Payload : Json :=
  .jarr [.jarr [.jstr "/src/a", .jstr "/dest/D/a"],
         .jarr [.jstr "/src/b", .jstr "/dest/D/b"]]

def c2Parse : String → Except String Json := fun _ => .ok c2Payload

def c2DB : DB :=
  { history := [{ id := 1, operationType := "organize", description := "batch",
                  details := some "payload", filesAffected := 2,
                  isUndone := false, createdAt := "" }] }

def c2FS : FS :=
  { files := ["/dest/D/a", "/dest/D/b"], dirs := ["/dest/D"],
    crossDevice := [("/dest/D/a", "/src/a")],
    copyFailures := [("/dest/D/a", "/src/a")],
    renameErrMsg := "rename failed", copyErrMsg := "copyfail",
    removeErrMsg := "remove failed" }

def w2Parse : String → Except String Json := fun _ => .ok (.jarr [])

def w2DB : DB :=
  { history := [{ id := 7, operationType := "organize", description := "empty",
                  details := some "[]", filesAffected := 0,
                  isUndone := false, createdAt := "" }] }

def w2FS : FS :=
  { files := [], dirs := [], crossDevice := [], copyFailures := [],
    renameErrMsg := "rename failed", copyErrMsg := "copy failed",
    removeErrMsg := "remove failed" }

def w6Payload : Json :=
  .jobj [("original_path", .jstr "/keep/x"), ("new_path", .jstr "/gone/x"),
         ("action", .jstr "move")]

def w6Parse : String → Except String Json := fun _ => .ok w6Payload

def w6DB : DB :=
  { history := [{ id := 3, operationType := "move", description := "m",
                  details := some "payload", filesAffected := 1,
                  isUndone := false, createdAt := "" }] }

def c8FS : FS :=
  { files := ["/a/b.txt"], dirs := ["/a"], crossDevice := [],
    copyFailures := [], renameErrMsg := "rename failed",
    copyErrMsg := "copy failed", removeErrMsg := "remove failed" }

def c8DB : DB := { history := [] }

def w8FS : FS :=
  { files := ["/a/b.txt"], dirs := ["/a"], crossDevice := [],
    copyFailures := [], renameErrMsg := "rename failed",
    copyErrMsg := "copy failed", removeErrMsg := "remove failed" }

def w10Rule : Rule :=
  { id := some 2, name := "renamer", priority := 5, enabled := true,
    conditions := [{ field := "extension", operator := "equals", value := ".txt" }],
    conditionLogic := "AND", actionType := "rename",
    actionDestination := none, actionRenamePattern := some "report_v2",
    createDateSubfolder := false }

def w3Rule : Rule :=
  { id := some 4, name := "jpg rule", priority := 10, enabled := true,
    conditions := [{ field := "extension", operator := "equals", value := ".jpg" }],
    conditionLogic := "AND", actionType := "move",
    actionDestination := some "/pics", actionRenamePattern := none,
    createDateSubfolder := false }

def w3Default : DefaultRule :=
  { id := 1, category := "images", enabled := true, destination := "Images",
    createDateSubfolder := false, priority := 0 }

def w3File : FileInfo :=
  { path := "/desk/a.jpg", name := "a.jpg", extension := ".jpg", size := 10,
    createdAt := "2024-01-01 00:00:00", modifiedAt := "2024-01-02 00:00:00",
    isDirectory := false, isHidden := false, category := .images }

def noRegex : String → Option (String → Bool) := fun _ => none

def c4FileA : SFile := { path := "/x/a", content := [] }

def c4FileB : SFile := { path := "/x/b", content := [] }

def w4FileA : SFile := { path := "/x/a.bin", content := [1, 2, 3] }

def w4FileB : SFile := { path := "/x/b.bin", content := [1, 2, 3] }

def w4FileC : SFile := { path := "/x/c.bin", content := [7, 7, 7] }

def w4FileD : SFile := { path := "/x/d.bin", content := [8, 8, 8] }

/-! ## Helper lemmas -/

/-- If `find?` returns `a` on a pairwise-related list, then `a` is
related to (or equal to) every member satisfying the predicate. -/
theorem find?_pairwise_min {α : Type _} {R : α → α → Prop} {p : α → Bool}
    {l : List α} {a : α} (hpw : l.Pairwise R) (hfind : l.find? p = some a) :
    ∀ b ∈ l, p b = true → a = b ∨ R a b := by
  induction l with
  | nil => simp at hfind
  | cons x xs ih =>
    rw [List.pairwise_cons] at hpw
    by_cases hx : p x = true
    · rw [List.find?_cons_of_pos _ hx] at hfind
      cases hfind
      intro b hb hpb
      rw [List.mem_cons] at hb
      rcases hb with rfl | hb
      · exact Or.inl rfl
      · exact Or.inr (hpw.1 b hb)
    · rw [List.find?_cons_of_neg _ hx] at hfind
      intro b hb hpb
      rw [List.mem_cons] at hb
      rcases hb with rfl | hb
      · exact absurd hpb hx
      · exact ih hpw.2 hfind b hb hpb

theorem mem_dedupFirstAux {α : Type _} [DecidableEq α] {a : α} :
    ∀ (l seen : List α), a ∈ dedupFirstAux l seen ↔ a ∈ l ∧ a ∉ seen := by
  intro l
  induction l with
  | nil => intro seen; simp [dedupFirstAux]
  | cons x xs ih =>
    intro seen
    by_cases hx : x ∈ seen
    · rw [dedupFirstAux, if_pos hx, ih, List.mem_cons]
      constructor
      · rintro ⟨h1, h2⟩
        exact ⟨Or.inr h1, h2⟩
      · rintro ⟨rfl | h1, h2⟩
        · exact absurd hx h2
        · exact ⟨h1, h2⟩
    · rw [dedupFirstAux, if_neg hx, List.mem_cons, ih, List.mem_cons,
        List.mem_cons]
      constructor
      · rintro (rfl | ⟨h1, h2⟩)
        · exact ⟨Or.inl rfl, hx⟩
        · exact ⟨Or.inr h1, fun hs => h2 (Or.inr hs)⟩
      · rintro ⟨rfl | h1, h2⟩
        · exact Or.inl rfl
        · by_cases hax : a = x
          · exact Or.inl hax
          · exact Or.inr ⟨h1, fun hs => hs.elim hax h2⟩

theorem mem_dedupFirst {α : Type _} [DecidableEq α] {a : α} {l : List α} :
    a ∈ dedupFirst l ↔ a ∈ l := by
  rw [dedupFirst, mem_dedupFirstAux]
  simp

theorem nodup_dedupFirstAux {α : Type _} [DecidableEq α] :
    ∀ (l seen : List α), (dedupFirstAux l seen).Nodup := by
  intro l
  induction l with
  | nil => intro seen; simp [dedupFirstAux]
  | cons x xs ih =>
    intro seen
    by_cases hx : x ∈ seen
    · rw [dedupFirstAux, if_pos hx]
      exact ih seen
    · rw [dedupFirstAux, if_neg hx, List.nodup_cons]
      refine ⟨fun hmem => ?_, ih (x :: seen)⟩
      rw [mem_dedupFirstAux] at hmem
      exact hmem.2 (List.mem_cons_self x seen)

theorem nodup_dedupFirst {α : Type _} [DecidableEq α] (l : List α) :
    (dedupFirst l).Nodup := nodup_dedupFirstAux l []

theorem dedupFirstAux_eq_nil {α : Type _} [DecidableEq α] :
    ∀ (l seen : List α), (∀ x ∈ l, x ∈ seen) → dedupFirstAux l seen = [] := by
  intro l
  induction l with
  | nil => intro seen _; rfl
  | cons x xs ih =>
    intro seen hall
    rw [dedupFirstAux, if_pos (hall x (List.mem_cons_self x xs))]
    exact ih seen (fun y hy => hall y (List.mem_cons_of_mem x hy))

theorem dedupFirst_const {α : Type _} [DecidableEq α] {l : List α} {a : α}
    (hne : l ≠ []) (hall : ∀ x ∈ l, x = a) : dedupFirst l = [a] := by
  cases l with
  | nil => exact absurd rfl hne
  | cons x xs =>
    have hx : x = a := hall x (List.mem_cons_self x xs)
    subst hx
    rw [dedupFirst, dedupFirstAux, if_neg (List.not_mem_nil x)]
    rw [dedupFirstAux_eq_nil xs [x]
      (fun y hy => by
        rw [hall y (List.mem_cons_of_mem x hy)]
        exact List.mem_cons_self x [])]

theorem find?_mark_undone {l : List HistoryItem} {id : Int} {item : HistoryItem}
    (h : l.find? (fun x => x.id == id) = some item) :
    (l.map (fun x => if x.id == id then { x with isUndone := true } else x)).find?
        (fun x => x.id == id) = some { item with isUndone := true } := by
  induction l with
  | nil => simp at h
  | cons x xs ih =>
    by_cases hx : (x.id == id) = true
    · simp only [List.find?_cons, hx] at h
      injection h with h2
      subst h2
      simp only [List.map_cons, if_pos hx]
      simp only [List.find?_cons, hx]
    · have hx2 : (x.id == id) = false := by
        cases hb : (x.id == id) with
        | true => exact absurd hb hx
        | false => rfl
      simp only [List.find?_cons, hx2] at h
      simp only [List.map_cons, if_neg hx]
      simp only [List.find?_cons, hx2]
      exact ih h

/-! ## C1: cross-device move fallback in the rule engine -/

/-- Claim C1, settled against the code: in `execute_action` a move whose
rename fails cross-device performs the fallback copy and deletes the
source — the file genuinely ends up exactly at the destination — yet the
function still returns the original rename error instead of the
destination path (the `map_err` closure cannot turn the `Err` into an
`Ok`), so the engine reports the move as failed. The sibling
`execute_unified` move (final two conjuncts) treats the same situation
as a successful move with no errors, as the claim describes. -/
theorem execute_action_move_fallback_bug :
    (execute_action c1Rule c1File c1FS).1 =
      .error "Invalid cross-device link (os error 18)" ∧
    (execute_action c1Rule c1File c1FS).2.hasFile "/dest/a.txt" = true ∧
    (execute_action c1Rule c1File c1FS).2.hasFile "/src/a.txt" = false ∧
    (unified_move_file c1FS "/src/a.txt" "/dest/a.txt" "a.txt").1 = true ∧
    (unified_move_file c1FS "/src/a.txt" "/dest/a.txt" "a.txt").2.1 = [] := by
  exact ⟨rfl, rfl, rfl, rfl, rfl⟩

/-! ## C10: the "rename" rule action is never executed -/

/-- Claim C10: executing a rule whose action type is "rename" always
returns the unsupported-action error and leaves the file system
untouched (only "move", "copy" and "delete" have arms in
`execute_action`), even though `format_action_preview` renders a rename
preview for it. -/
theorem rename_rule_action_unsupported (rule : Rule) (file : FileInfo) (fs : FS)
    (h : rule.actionType = "rename") :
    execute_action rule file fs = (.error "지원되지 않는 작업입니다", fs) ∧
    (∀ pat, rule.actionRenamePattern = some pat →
      format_action_preview rule file = "이름변경: " ++ file.name ++ " → " ++ pat) := by
  constructor
  · unfold execute_action
    rw [h]
    rfl
  · intro pat hp
    unfold format_action_preview
    rw [h, hp]
    rfl

theorem rename_rule_action_unsupported_witness :
    execute_action w10Rule c1File c1FS = (.error "지원되지 않는 작업입니다", c1FS) ∧
    format_action_preview w10Rule c1File = "이름변경: a.txt → report_v2" := by
  have h := rename_rule_action_unsupported w10Rule c1File c1FS rfl
  exact ⟨h.1, h.2 "report_v2" rfl⟩

/-! ## C7: condition evaluation is total and fails closed -/

/-- Claim C7: a rule with no conditions never matches; a
greaterThan/lessThan condition is false whenever either side fails to
parse as an unsigned integer; a matches condition whose pattern the
regex engine rejects is false; and evaluation always returns a boolean
(no error path exists). -/
theorem condition_evaluation_fails_closed :
    (∀ (rc : String → Option (String → Bool)) (file : FileInfo) (rule : Rule),
       rule.conditions = [] → evaluate_rule rc file rule = false) ∧
    (∀ (rc : String → Option (String → Bool)) (file : FileInfo) (c : Condition)
       (fv : String), (c.operator = "greaterThan" ∨ c.operator = "lessThan") →
       fieldValue? file c.field = some fv →
       (parse_u64 fv = none ∨ parse_u64 c.value = none) →
       evaluate_condition rc file c = false) ∧
    (∀ (rc : String → Option (String → Bool)) (file : FileInfo) (c : Condition),
       c.operator = "matches" → rc c.value = none →
       evaluate_condition rc file c = false) ∧
    (∀ (rc : String → Option (String → Bool)) (file : FileInfo) (c : Condition),
       evaluate_condition rc file c = true ∨ evaluate_condition rc file c = false) := by
  refine ⟨?_, ?_, ?_, ?_⟩
  · intro rc file rule h
    simp [evaluate_rule, h]
  · intro rc file c fv hop hfv hparse
    unfold evaluate_condition
    rw [hfv]
    rcases hop with hop | hop <;> rw [hop] <;>
      cases hfvp : parse_u64 fv <;> cases hvp : parse_u64 c.value <;>
      first
        | rfl
        | (rcases hparse with hp | hp <;> simp_all)
  · intro rc file c hop hrc
    unfold evaluate_condition
    cases hfv : fieldValue? file c.field with
    | none => rfl
    | some fv =>
      rw [hop, hrc]
      rfl
  · intro rc file c
    exact Bool.eq_false_or_eq_true _

theorem condition_evaluation_fails_closed_witness :
    evaluate_rule noRegex w3File
      { id := none, name := "empty", priority := 0, enabled := true,
        conditions := [], conditionLogic := "AND", actionType := "move",
        actionDestination := none, actionRenamePattern := none,
        createDateSubfolder := false } = false ∧
    evaluate_condition noRegex w3File
      { field := "name", operator := "greaterThan", value := "10" } = false ∧
    evaluate_condition noRegex w3File
      { field := "size", operator := "matches", value := "(" } = false := by
  refine ⟨?_, ?_, ?_⟩
  · exact condition_evaluation_fails_closed.1 noRegex w3File _ rfl
  · exact condition_evaluation_fails_closed.2.1 noRegex w3File _ "a.jpg"
      (Or.inl rfl) rfl (Or.inl rfl)
  · exact condition_evaluation_fails_closed.2.2.1 noRegex w3File _ rfl rfl

/-! ## C9: the extension seed versus the classifier table -/

/-- Counterexample to claim C9: the seed maps ".hwpx" to "documents" but
`classify_extension` puts ".hwpx" in Others (it is missing from the
classifier's document list), and the classifier's table contains
extensions — ".tiff" for instance — that the seed omits entirely, so
neither direction of the claimed consistency holds. -/
theorem extension_seed_mismatch :
    (".hwpx", "documents", "Documents") ∈ default_extension_mappings ∧
    categoryStr (classify_extension ".hwpx") = "others" ∧
    ".tiff" ∈ classifier_extensions ∧
    default_extension_mappings.all (fun t => t.1 != ".tiff") = true := by
  refine ⟨by decide, by decide, by decide, by decide⟩

/-- Claim C9 as amended: every seeded mapping except the ".hwpx" row
agrees with `classify_extension`, ".hwpx" itself is seeded as documents
while the classifier yields Others, and the seed does not cover the
classifier's table (".tiff" is classified but never seeded). -/
theorem extension_seed_agrees_except_hwpx :
    (∀ t ∈ default_extension_mappings, t.1 ≠ ".hwpx" →
       categoryStr (classify_extension t.1) = t.2.1) ∧
    categoryStr (classify_extension ".hwpx") = "others" ∧
    classifier_extensions.contains ".tiff" = true ∧
    default_extension_mappings.all (fun t => t.1 != ".tiff") = true := by
  refine ⟨by decide, by decide, by decide, by decide⟩

theorem extension_seed_agrees_except_hwpx_witness :
    categoryStr (classify_extension ".jpg") = "images" := by
  exact extension_seed_agrees_except_hwpx.1 (".jpg", "images", "Images")
    (by decide) (by decide)

/-! ## C8: rename conflict detection -/

/-- Counterexample to claim C8: renaming `/a/b.txt` to its own current
name resolves to the original path, which exists, and `rename_file`
refuses it with the already-exists error — the code has no
"differs from the original" exemption. -/
theorem rename_to_own_name_refused :
    pathJoin "/a" "b.txt" = "/a/b.txt" ∧
    rename_file c8FS c8DB "/a/b.txt" "b.txt" =
      (.error "File already exists: /a/b.txt", c8FS, c8DB) := by
  exact ⟨rfl, rfl⟩

/-- Claim C8 as amended: `rename_file` fails with the already-exists
error exactly when the resolved new path (parent joined with the new
name) exists — with no exemption for the case where it equals the
original path, so renaming a file to its own current name is refused.
When the resolved path is free, the outcome is that of the underlying
rename syscall, never he conflict error. -/
theorem rename_conflict_iff_target_exists
    (fs : FS) (db : DB) (path newName parent : String)
    (hsrc : fs.hasFile path = true)
    (hpar : pathParent path = some parent) :
    (fs.pathExists (pathJoin parent newName) = true →
       rename_file fs db path newName =
         (.error ("File already exists: " ++ pathJoin parent newName), fs, db)) ∧
    (fs.pathExists (pathJoin parent newName) = false →
       fs.crossDevice.contains (path, pathJoin parent newName) = true →
       rename_file fs db path newName = (.error fs.renameErrMsg, fs, db)) ∧
    (fs.pathExists (pathJoin parent newName) = false →
       fs.crossDevice.contains (path, pathJoin parent newName) = false →
       (rename_file fs db path newName).1 = .ok (pathJoin parent newName)) ∧
    (fs.renameErrMsg ≠ "File already exists: " ++ pathJoin parent newName →
       ((rename_file fs db path newName).1 =
          .error ("File already exists: " ++ pathJoin parent newName) ↔
        fs.pathExists (pathJoin parent newName) = true)) := by
  have hpe : fs.pathExists path = true := by
    unfold FS.pathExists
    unfold FS.hasFile at hsrc
    rw [hsrc]
    rfl
  unfold rename_file
  rw [hpe, hpar]
  simp only [Bool.not_true, Bool.false_eq_true, if_false]
  refine ⟨?_, ?_, ?_, ?_⟩
  · intro hex
    rw [if_pos hex]
  · intro hex hcd
    rw [if_neg (by rw [hex]; exact Bool.false_ne_true)]
    unfold FS.rename
    rw [if_pos hsrc, if_pos hcd]
  · intro hex hcd
    rw [if_neg (by rw [hex]; exact Bool.false_ne_true)]
    unfold FS.rename
    rw [if_pos hsrc, if_neg (by rw [hcd]; exact Bool.false_ne_true)]
  · intro hmsg
    constructor
    · intro heq
      by_cases hex : fs.pathExists (pathJoin parent newName) = true
      · exact hex
      · exfalso
        rw [Bool.not_eq_true] at hex
        rw [if_neg (by rw [hex]; exact Bool.false_ne_true)] at heq
        unfold FS.rename at heq
        rw [if_pos hsrc] at heq
        by_cases hcd : fs.crossDevice.contains (path, pathJoin parent newName) = true
        · rw [if_pos hcd] at heq
          simp at heq
          exact hmsg heq
        · rw [Bool.not_eq_true] at hcd
          rw [if_neg (by rw [hcd]; exact Bool.false_ne_true)] at heq
          simp at heq
    · intro hex
      rw [if_pos hex]

theorem rename_conflict_iff_target_exists_witness :
    rename_file w8FS c8DB "/a/b.txt" "c.txt" ≠
      (.error "File already exists: /a/c.txt", w8FS, c8DB) ∧
    (rename_file w8FS c8DB "/a/b.txt" "c.txt").1 = .ok "/a/c.txt" := by
  have h := rename_conflict_iff_target_exists w8FS c8DB "/a/b.txt" "c.txt" "/a"
    rfl rfl
  refine ⟨?_, h.2.2.1 rfl rfl⟩
  intro hcontra
  have h1 := h.2.2.1 rfl rfl
  rw [hcontra] at h1
  simp at h1

/-! ## Helper lemmas about undo success -/

/-- A successful `undo_operation` always returns the marked database and
implies the entry was found not yet undone. -/
theorem undo_operation_ok {parse : String → Except String Json} {db : DB}
    {fs : FS} {id : Int} {db2 : DB} {fs2 : FS}
    (h : undo_operation parse db fs id = (.ok (), db2, fs2)) :
    db2 = mark_history_undone db id ∧
    ∃ item, get_history_item db id = .ok item ∧ item.isUndone = false := by
  unfold undo_operation at h
  cases hget : get_history_item db id with
  | error e => simp only [hget] at h; simp at h
  | ok item =>
    simp only [hget] at h
    by_cases hu : item.isUndone
    · rw [if_pos hu] at h; simp at h
    · rw [if_neg hu] at h
      refine ⟨?_, item, rfl, by simpa using hu⟩
      cases hparse : parse (item.details.getD "") with
      | error e => simp only [hparse] at h; simp at h
      | ok undoData =>
        simp only [hparse] at h
        repeat' split at h
        all_goals
          first
            | (simp only [Prod.mk.injEq] at h; exact h.2.1.symm)
            | simp at h

/-- Marking an entry undone is visible to a subsequent fetch. -/
theorem get_history_item_mark {db : DB} {id : Int} {item : HistoryItem}
    (h : get_history_item db id = .ok item) :
    get_history_item (mark_history_undone db id) id =
      .ok { item with isUndone := true } := by
  unfold get_history_item at h ⊢
  unfold mark_history_undone
  cases hf : db.history.find? (fun x => x.id == id) with
  | none => simp only [hf] at h; simp at h
  | some it =>
    simp only [hf, Except.ok.injEq] at h
    subst h
    rw [find?_mark_undone hf]

/-! ## C6: the already-undone guard -/

/-- Claim C6: if an entry's `is_undone` flag is set, `undo_operation`
fails with the already-undone error before touching the file system
(the returned state equals the input state), and after any successful
undo — which marks the entry — a repeated call on the same id is
rejected the same way, so reversal I/O cannot run twice for an id. -/
theorem undo_already_undone_guard :
    (∀ (parse : String → Except String Json) (db : DB) (fs : FS) (id : Int)
       (item : HistoryItem), get_history_item db id = .ok item →
       item.isUndone = true →
       undo_operation parse db fs id =
         (.error "Operation has already been undone", db, fs)) ∧
    (∀ (parse : String → Except String Json) (db : DB) (fs : FS) (id : Int)
       (out : DB × FS), undo_operation parse db fs id = (.ok (), out) →
       ∀ (fsB : FS), undo_operation parse out.1 fsB id =
         (.error "Operation has already been undone", out.1, fsB)) := by
  constructor
  · intro parse db fs id item hget hu
    unfold undo_operation
    simp only [hget]
    simp [hu]
  · intro parse db fs id out h fsB
    obtain ⟨hdb, item, hget, hu⟩ :=
      undo_operation_ok h
    have hget2 : get_history_item out.1 id = .ok { item with isUndone := true } := by
      rw [hdb]
      exact get_history_item_mark hget
    unfold undo_operation
    simp only [hget2]
    simp

theorem undo_already_undone_guard_witness :
    undo_operation w6Parse (mark_history_undone w6DB 3) c8FS 3 =
      (.error "Operation has already been undone", mark_history_undone w6DB 3, c8FS) := by
  exact undo_already_undone_guard.1 w6Parse (mark_history_undone w6DB 3) c8FS 3
    { id := 3, operationType := "move", description := "m",
      details := some "payload", filesAffected := 1, isUndone := true,
      createdAt := "" } rfl rfl

/-! ## C2: batch undo and the `is_undone` flag -/

/-- Counterexample to claim C2: a two-pair organize undo in which one
pair fails (cross-device rename and fallback copy both fail) returns the
aggregated error and leaves the database untouched: the entry's
`is_undone` flag is still false, where the claim asserts it would be set
even when some pairs failed. -/
theorem undo_batch_partial_failure_leaves_entry_active :
    (undo_operation c2Parse c2DB c2FS 1).1 =
      .error "Some files could not be restored: [\"Failed to move /dest/D/a: copyfail\"]" ∧
    (undo_operation c2Parse c2DB c2FS 1).2.1 = c2DB ∧
    ((undo_operation c2Parse c2DB c2FS 1).2.1.history.map
      (fun h => h.isUndone)) = [false] := by
  exact ⟨rfl, rfl, rfl⟩

/-- Claim C2 as amended: after all pairs whose new path still exists
have been attempted, the entry is marked undone only when no pair
failed; when some pair failed, the command reports the aggregated
per-pair errors and leaves `is_undone` unchanged (false). -/
theorem undo_batch_marks_undone_only_on_full_success
    (parse : String → Except String Json) (db : DB) (fs : FS) (id : Int)
    (item : HistoryItem) (moves : List Json)
    (hget : get_history_item db id = .ok item)
    (hund : item.isUndone = false)
    (hparse : parse (item.details.getD "") = .ok (.jarr moves)) :
    ((moves.foldl undo_move_pair ([], fs)).1 = [] →
       undo_operation parse db fs id =
         (.ok (), mark_history_undone db id,
          cleanup_empty_folders (.jarr moves)
            (moves.foldl undo_move_pair ([], fs)).2)) ∧
    ((moves.foldl undo_move_pair ([], fs)).1 ≠ [] →
       undo_operation parse db fs id =
         (.error ("Some files could not be restored: " ++
             debugStrList (moves.foldl undo_move_pair ([], fs)).1),
          db,
          cleanup_empty_folders (.jarr moves)
            (moves.foldl undo_move_pair ([], fs)).2)) := by
  have key : undo_operation parse db fs id =
      (if (moves.foldl undo_move_pair ([], fs)).1.isEmpty then
        ((.ok (), mark_history_undone db id,
          cleanup_empty_folders (.jarr moves)
            (moves.foldl undo_move_pair ([], fs)).2) :
          Except String Unit × DB × FS)
      else
        (.error ("Some files could not be restored: " ++
            debugStrList (moves.foldl undo_move_pair ([], fs)).1),
         db,
         cleanup_empty_folders (.jarr moves)
           (moves.foldl undo_move_pair ([], fs)).2)) := by
    unfold undo_operation
    simp only [hget]
    simp only [hund, Bool.false_eq_true, if_false]
    rw [hparse]
    rfl
  constructor
  · intro he
    rw [key, if_pos (by rw [he]; rfl)]
  · intro hne
    rw [key, if_neg (fun hemp => hne (List.isEmpty_iff.mp hemp))]

theorem undo_batch_marks_undone_only_on_full_success_witness :
    undo_operation w2Parse w2DB w2FS 7 =
      (.ok (), mark_history_undone w2DB 7,
       cleanup_empty_folders (.jarr []) w2FS) := by
  exact (undo_batch_marks_undone_only_on_full_success w2Parse w2DB w2FS 7
    { id := 7, operationType := "organize", description := "empty",
      details := some "[]", filesAffected := 0, isUndone := false,
      createdAt := "" } [] rfl rfl rfl).1 rfl

/-! ## C5: fingerprint window structure -/

/-- Claim C5: the fingerprint digests the first `min(65536, length)`
bytes, then the last 65536 bytes exactly when `length > 131072`, then
the 8-byte little-endian length. At exactly 131072 bytes only the front
window is used; at 131073 bytes the back window joins; and any two
files agreeing in length, front window and (when applicable) back
window receive the same fingerprint whatever their middle bytes. -/
theorem compute_file_hash_window_spec :
    (∀ (hash : List Nat → Nat) (c : List Nat), c.length = 131072 →
       hasher_data c = c.take 65536 ++ leBytes8 131072 ∧
       compute_file_hash hash c = hash (c.take 65536 ++ leBytes8 131072)) ∧
    (∀ (hash : List Nat → Nat) (c : List Nat), c.length = 131073 →
       hasher_data c = c.take 65536 ++ c.drop 65537 ++ leBytes8 131073 ∧
       compute_file_hash hash c =
         hash (c.take 65536 ++ c.drop 65537 ++ leBytes8 131073)) ∧
    (∀ (hash : List Nat → Nat) (c : List Nat), c.length ≤ 131072 →
       compute_file_hash hash c =
         hash (c.take (min 65536 c.length) ++ leBytes8 c.length)) ∧
    (∀ (hash : List Nat → Nat) (c1 c2 : List Nat), c1.length = c2.length →
       c1.take 65536 = c2.take 65536 →
       (131072 < c1.length →
         c1.drop (c1.length - 65536) = c2.drop (c2.length - 65536)) →
       compute_file_hash hash c1 = compute_file_hash hash c2) := by
  have hfront : ∀ (c1 c2 : List Nat), c1.take 65536 = c2.take 65536 →
      ∀ n, n ≤ 65536 → c1.take n = c2.take n := by
    intro c1 c2 h n hn
    have h1 : c1.take n = (c1.take 65536).take n := by
      rw [List.take_take, Nat.min_eq_left hn]
    have h2 : c2.take n = (c2.take 65536).take n := by
      rw [List.take_take, Nat.min_eq_left hn]
    rw [h1, h2, h]
  refine ⟨?_, ?_, ?_, ?_⟩
  · intro hash c h
    constructor
    · unfold hasher_data
      rw [h]
      norm_num
    · unfold compute_file_hash hasher_data
      rw [h]
      norm_num
  · intro hash c h
    constructor
    · unfold hasher_data
      rw [h]
      norm_num
    · unfold compute_file_hash hasher_data
      rw [h]
      norm_num
  · intro hash c h
    unfold compute_file_hash hasher_data
    dsimp only
    rw [if_neg (by omega)]
    simp
  · intro hash c1 c2 hlen hfr hbk
    unfold compute_file_hash hasher_data
    dsimp only
    rw [hlen]
    have hfr2 : c1.take (min 65536 c2.length) = c2.take (min 65536 c2.length) :=
      hfront c1 c2 hfr _ (Nat.min_le_left _ _)
    rw [hfr2]
    by_cases hbig : 131072 < c2.length
    · simp only [if_pos hbig]
      have hbk2 := hbk (hlen ▸ hbig)
      rw [hlen] at hbk2
      rw [hbk2]
    · simp only [if_neg hbig]

theorem compute_file_hash_window_spec_witness :
    (List.replicate 131072 3).length = 131072 ∧
    hasher_data (List.replicate 131072 3) =
      (List.replicate 131072 3).take 65536 ++ leBytes8 131072 ∧
    (List.replicate 131073 3).length = 131073 ∧
    hasher_data (List.replicate 131073 3) =
      (List.replicate 131073 3).take 65536 ++
        (List.replicate 131073 3).drop 65537 ++ leBytes8 131073 ∧
    compute_file_hash (fun l => l.length)
        (List.replicate 65536 3 ++ 5 :: List.replicate 65536 3) =
      compute_file_hash (fun l => l.length)
        (List.replicate 65536 3 ++ 9 :: List.replicate 65536 3) := by
  have hlen1 : (List.replicate 131072 3).length = 131072 := by
    rw [List.length_replicate]
  have hlen2 : (List.replicate 131073 3).length = 131073 := by
    rw [List.length_replicate]
  have hlenM : ∀ m : Nat,
      (List.replicate 65536 3 ++ m :: List.replicate 65536 3).length = 131073 := by
    intro m
    rw [List.length_append, List.length_replicate, List.length_cons,
      List.length_replicate]
  have htakeM : ∀ m : Nat,
      (List.replicate 65536 3 ++ m :: List.replicate 65536 3).take 65536 =
        List.replicate 65536 (3 : Nat) := by
    intro m
    have h0 := @List.take_append Nat (List.replicate 65536 (3 : Nat))
      (m :: List.replicate 65536 3) 0
    rw [List.length_replicate] at h0
    rw [h0, List.take_zero, List.append_nil]
  have hdropM : ∀ m : Nat,
      (List.replicate 65536 3 ++ m :: List.replicate 65536 3).drop
          ((List.replicate 65536 3 ++ m :: List.replicate 65536 3).length - 65536) =
        List.replicate 65536 (3 : Nat) := by
    intro m
    rw [hlenM m]
    have : (131073 - 65536 : Nat) = 65536 + 1 := by norm_num
    rw [this]
    have h2 := @List.drop_append Nat (List.replicate 65536 (3 : Nat))
      (m :: List.replicate 65536 3) 1
    rw [List.length_replicate] at h2
    rw [h2]
    rfl
  refine ⟨hlen1, (compute_file_hash_window_spec.1 (fun l => l.length) _ hlen1).1,
    hlen2, (compute_file_hash_window_spec.2.1 (fun l => l.length) _ hlen2).1, ?_⟩
  exact compute_file_hash_window_spec.2.2.2 (fun l => l.length) _ _
    ((hlenM 5).trans (hlenM 9).symm)
    ((htakeM 5).trans (htakeM 9).symm)
    (fun _ => (hdropM 5).trans (hdropM 9).symm)

/-! ## C4 counterexample -/

/-- Counterexample to claim C4: two zero-byte files have identical
content and size, yet `find_duplicates` returns no group at all — the
`size > 0` guard drops empty files before bucketing, so not all files
are bucketed by size and the claimed "exactly one group of size N" fails
for N identical empty files. -/
theorem find_duplicates_skips_zero_size_files :
    c4FileA.content = c4FileB.content ∧
    find_duplicates [c4FileA, c4FileB] = [] := by
  constructor
  · rfl
  · have h0 : find_duplicates [c4FileA, c4FileB] =
        List.mergeSort [] (fun a b => decide (wastedSpace b ≤ wastedSpace a)) := rfl
    rw [h0, List.mergeSort_nil]

/-! ## C3: unified-engine rule precedence -/

/-- Claim C3: the unified engine evaluates enabled custom rules in
descending priority order with the first match winning (so the verdict
rule matches, is enabled, and no enabled matching stored rule has a
strictly greater priority); when no enabled custom rule matches, the
first enabled default rule with the file's category tag gives a
"default" verdict; when neither exists the file gets no plan entry; and
for one custom rule and one default rule of the file's category, the
enabled custom rule wins, disabling it hands the file to the default
rule, and disabling both drops the file from the plan. -/
theorem unified_rule_precedence :
    (∀ (rc : String → Option (String → Bool)) (stored : List Rule)
       (defaults : List DefaultRule) (src : String) (fi : FileInfo)
       (p : UnifiedPreview) (r : Rule),
       engine_verdict rc stored defaults src fi = some p → p.rule = some r →
       p.matchType = "custom" ∧ r ∈ stored ∧ r.enabled = true ∧
       evaluate_rule rc fi r = true ∧
       ∀ rb ∈ stored, rb.enabled = true → evaluate_rule rc fi rb = true →
         rb.priority ≤ r.priority) ∧
    (∀ (rc : String → Option (String → Bool)) (stored : List Rule)
       (defaults : List DefaultRule) (src : String) (fi : FileInfo),
       (∀ rb ∈ stored, rb.enabled = true → evaluate_rule rc fi rb = false) →
       ∀ dr : DefaultRule,
         ((get_default_rules_internal defaults).filter
             (fun d => d.enabled)).find?
               (fun d => d.category == categoryStr fi.category) = some dr →
         engine_verdict rc stored defaults src fi =
           some { file := fi, matchType := "default", rule := none,
                  defaultRule := some dr,
                  action := "이동: " ++ fi.name ++ " → " ++ dr.destination,
                  destination := pathJoin src dr.destination }) ∧
    (∀ (rc : String → Option (String → Bool)) (stored : List Rule)
       (defaults : List DefaultRule) (src : String) (fi : FileInfo),
       (∀ rb ∈ stored, rb.enabled = true → evaluate_rule rc fi rb = false) →
       (∀ dr ∈ defaults, dr.enabled = true →
          dr.category ≠ categoryStr fi.category) →
       engine_verdict rc stored defaults src fi = none) ∧
    (∀ (rc : String → Option (String → Bool)) (src : String) (fi : FileInfo)
       (r : Rule) (d : DefaultRule),
       (r.enabled = true → evaluate_rule rc fi r = true →
          engine_verdict rc [r] [d] src fi =
            some { file := fi, matchType := "custom", rule := some r,
                   defaultRule := none,
                   action := format_action_preview r fi,
                   destination := r.actionDestination.getD "" }) ∧
       (r.enabled = false → d.enabled = true →
          d.category = categoryStr fi.category →
          engine_verdict rc [r] [d] src fi =
            some { file := fi, matchType := "default", rule := none,
                   defaultRule := some d,
                   action := "이동: " ++ fi.name ++ " → " ++ d.destination,
                   destination := pathJoin src d.destination }) ∧
       (r.enabled = false → d.enabled = false →
          engine_verdict rc [r] [d] src fi = none)) := by
  have hper : ∀ (stored : List Rule) (r : Rule),
      r ∈ get_rules_internal stored ↔ r ∈ stored := by
    intro stored r
    exact (List.mergeSort_perm stored _).mem_iff
  have htrans : ∀ (a b c : Rule),
      decide (b.priority ≤ a.priority) = true →
      decide (c.priority ≤ b.priority) = true →
      decide (c.priority ≤ a.priority) = true := by
    intro a b c h1 h2
    rw [decide_eq_true_eq] at h1 h2 ⊢
    exact le_trans h2 h1
  have htot : ∀ (a b : Rule),
      (decide (b.priority ≤ a.priority) || decide (a.priority ≤ b.priority)) = true := by
    intro a b
    rcases le_total a.priority b.priority with h | h <;> simp [h]
  refine ⟨?_, ?_, ?_, ?_⟩
  · intro rc stored defaults src fi p r hv hr
    unfold engine_verdict unified_file_preview at hv
    cases hfind : ((get_rules_internal stored).filter
        (fun rr => rr.enabled)).find? (fun rr => evaluate_rule rc fi rr) with
    | none =>
      simp only [hfind] at hv
      cases hfind2 : ((get_default_rules_internal defaults).filter
          (fun d => d.enabled)).find?
            (fun d => d.category == categoryStr fi.category) with
      | none => simp only [hfind2] at hv; simp at hv
      | some dr =>
        simp only [hfind2, Option.some.injEq] at hv
        rw [← hv] at hr
        simp at hr
    | some rule =>
      simp only [hfind, Option.some.injEq] at hv
      rw [← hv] at hr
      simp only [Option.some.injEq] at hr
      subst hr
      refine ⟨by rw [← hv], ?_, ?_, List.find?_some hfind, ?_⟩
      · have hmem := List.mem_of_find?_eq_some hfind
        rw [List.mem_filter] at hmem
        exact (hper stored _).mp hmem.1
      · exact (List.mem_filter.mp (List.mem_of_find?_eq_some hfind)).2
      · intro rb hrb henb heval
        have hpw : List.Pairwise
            (fun a b => decide (b.priority ≤ a.priority) = true)
            ((get_rules_internal stored).filter (fun rr => rr.enabled)) :=
          List.Pairwise.filter _ (List.sorted_mergeSort htrans htot stored)
        have hrbmem : rb ∈ (get_rules_internal stored).filter
            (fun rr => rr.enabled) :=
          List.mem_filter.mpr ⟨(hper stored rb).mpr hrb, henb⟩
        rcases find?_pairwise_min hpw hfind rb hrbmem heval with heq | hle
        · rw [heq]
        · rw [decide_eq_true_eq] at hle
          exact hle

  · intro rc stored defaults src fi hnone dr hdr
    unfold engine_verdict unified_file_preview
    have hfind : ((get_rules_internal stored).filter
        (fun rr => rr.enabled)).find? (fun rr => evaluate_rule rc fi rr) = none := by
      rw [List.find?_eq_none]
      intro x hx
      rw [List.mem_filter] at hx
      rw [hnone x ((hper stored x).mp hx.1) hx.2]
      simp
    simp only [hfind, hdr]
  · intro rc stored defaults src fi hnone hne
    unfold engine_verdict unified_file_preview
    have hfind : ((get_rules_internal stored).filter
        (fun rr => rr.enabled)).find? (fun rr => evaluate_rule rc fi rr) = none := by
      rw [List.find?_eq_none]
      intro x hx
      rw [List.mem_filter] at hx
      rw [hnone x ((hper stored x).mp hx.1) hx.2]
      simp
    have hfind2 : ((get_default_rules_internal defaults).filter
        (fun d => d.enabled)).find?
          (fun d => d.category == categoryStr fi.category) = none := by
      rw [List.find?_eq_none]
      intro d hd
      rw [List.mem_filter] at hd
      have hdm : d ∈ defaults := (List.mergeSort_perm defaults _).mem_iff.mp hd.1
      have hcat := hne d hdm hd.2
      simp [hcat]
    simp only [hfind, hfind2]
  · intro rc src fi r d
    have h1 : get_rules_internal [r] = [r] :=
      List.perm_singleton.mp (List.mergeSort_perm [r] _)
    have h2 : get_default_rules_internal [d] = [d] :=
      List.perm_singleton.mp (List.mergeSort_perm [d] _)
    refine ⟨?_, ?_, ?_⟩
    · intro henb heval
      unfold engine_verdict unified_file_preview
      rw [h1]
      have hfil : List.filter (fun rr => rr.enabled) [r] = [r] := by
        simp [List.filter_cons, henb]
      rw [hfil, List.find?_cons_of_pos _ heval]
    · intro hdis hen hcat
      unfold engine_verdict unified_file_preview
      rw [h1, h2]
      have hfil : List.filter (fun rr => rr.enabled) [r] = [] := by
        simp [List.filter_cons, hdis]
      have hfil2 : List.filter (fun dd => dd.enabled) [d] = [d] := by
        simp [List.filter_cons, hen]
      rw [hfil, hfil2]
      simp only [List.find?_nil]
      rw [List.find?_cons_of_pos _ (by rw [hcat]; exact beq_self_eq_true _)]
    · intro hdis hden
      unfold engine_verdict unified_file_preview
      rw [h1, h2]
      have hfil : List.filter (fun rr => rr.enabled) [r] = [] := by
        simp [List.filter_cons, hdis]
      have hfil2 : List.filter (fun dd => dd.enabled) [d] = [] := by
        simp [List.filter_cons, hden]
      rw [hfil, hfil2]
      simp only [List.find?_nil]

theorem unified_rule_precedence_witness :
    engine_verdict noRegex [w3Rule] [w3Default] "/desk" w3File =
      some { file := w3File, matchType := "custom", rule := some w3Rule,
             defaultRule := none,
             action := format_action_preview w3Rule w3File,
             destination := w3Rule.actionDestination.getD "" } ∧
    engine_verdict noRegex [{ w3Rule with enabled := false }] [w3Default]
        "/desk" w3File =
      some { file := w3File, matchType := "default", rule := none,
             defaultRule := some w3Default,
             action := "이동: " ++ w3File.name ++ " → " ++ w3Default.destination,
             destination := pathJoin "/desk" w3Default.destination } ∧
    engine_verdict noRegex [{ w3Rule with enabled := false }]
        [{ w3Default with enabled := false }] "/desk" w3File = none := by
  refine ⟨?_, ?_, ?_⟩
  · exact (unified_rule_precedence.2.2.2 noRegex "/desk" w3File w3Rule
      w3Default).1 rfl rfl
  · exact (unified_rule_precedence.2.2.2 noRegex "/desk" w3File
      { w3Rule with enabled := false } w3Default).2.1 rfl rfl rfl
  · exact (unified_rule_precedence.2.2.2 noRegex "/desk" w3File
      { w3Rule with enabled := false }
      { w3Default with enabled := false }).2.2 rfl rfl

/-! ## C4: amended duplicate-detection specification -/

theorem mem_hashedFiles {files : List SFile} {f : SFile}
    (h : f ∈ hashedFiles files) : f ∈ files := by
  unfold hashedFiles at h
  rw [List.mem_flatten] at h
  obtain ⟨l, hl, hf⟩ := h
  rw [List.mem_map] at hl
  obtain ⟨gr, hgr, rfl⟩ := hl
  have hgr2 := (List.mem_filter.mp hgr).1
  unfold size_groups at hgr2
  rw [List.mem_map] at hgr2
  obtain ⟨s, hs, rfl⟩ := hgr2
  have hpos := (List.mem_filter.mp hf).1
  unfold positiveFiles at hpos
  exact (List.mem_filter.mp hpos).1

theorem nodup_hashedFiles {files : List SFile} (h : files.Nodup) :
    (hashedFiles files).Nodup := by
  unfold hashedFiles
  rw [List.nodup_flatten]
  constructor
  · intro l hl
    rw [List.mem_map] at hl
    obtain ⟨gr, hgr, rfl⟩ := hl
    have hgr2 := (List.mem_filter.mp hgr).1
    unfold size_groups at hgr2
    rw [List.mem_map] at hgr2
    obtain ⟨s, hs, rfl⟩ := hgr2
    exact List.Nodup.filter _ (List.Nodup.filter _ h)
  · have hkeys : (dedupFirst
        ((positiveFiles files).map (fun f => f.content.length))).Nodup :=
      nodup_dedupFirst _
    have hkeys2 : List.Pairwise (fun a b => a ≠ b)
        (dedupFirst ((positiveFiles files).map (fun f => f.content.length))) :=
      hkeys
    unfold size_groups
    refine List.pairwise_map.mpr ?_
    refine List.Pairwise.filter _ ?_
    refine List.pairwise_map.mpr ?_
    refine hkeys2.imp ?_
    intro s t hst
    intro f hf1 hf2
    have h1 := (List.mem_filter.mp hf1).2
    have h2 := (List.mem_filter.mp hf2).2
    rw [beq_iff_eq] at h1 h2
    exact hst (h1 ▸ h2)

/-- Claim C4 as amended: `find_duplicates` buckets the files of positive
size by exact byte size (zero-byte files are dropped by the
`size > 0` guard), fingerprints only the multi-member buckets, prunes
fingerprint groups below two members — so every returned group has at
least two files — and returns the groups sorted by descending wasted
space `size * (count - 1)`. For N ≥ 2 files of identical nonempty
content it returns exactly the one group containing all of them; and for
distinct files whose fingerprint data (front window, back window when
applicable, length) are pairwise different it returns no group. -/
theorem find_duplicates_amended_spec :
    (∀ (files : List SFile) (g : DuplicateGroup), g ∈ find_duplicates files →
       2 ≤ g.files.length) ∧
    (∀ files : List SFile,
       List.Pairwise (fun a b => wastedSpace b ≤ wastedSpace a)
         (find_duplicates files)) ∧
    (∀ (c : List Nat) (files : List SFile), 2 ≤ files.length → c ≠ [] →
       (∀ f ∈ files, f.content = c) →
       find_duplicates files =
         [{ hash := hasher_data c, size := c.length, files := files }]) ∧
    (∀ files : List SFile, files.Nodup →
       (∀ f1 ∈ files, ∀ f2 ∈ files, fileHashKey f1 = fileHashKey f2 → f1 = f2) →
       find_duplicates files = []) := by
  have htrans : ∀ (a b c : DuplicateGroup),
      decide (wastedSpace b ≤ wastedSpace a) = true →
      decide (wastedSpace c ≤ wastedSpace b) = true →
      decide (wastedSpace c ≤ wastedSpace a) = true := by
    intro a b c h1 h2
    rw [decide_eq_true_eq] at h1 h2 ⊢
    omega
  have htot : ∀ (a b : DuplicateGroup),
      (decide (wastedSpace b ≤ wastedSpace a) ||
        decide (wastedSpace a ≤ wastedSpace b)) = true := by
    intro a b
    rcases Nat.le_total (wastedSpace a) (wastedSpace b) with h | h <;> simp [h]
  refine ⟨?_, ?_, ?_, ?_⟩
  · intro files g hg
    have hg2 : g ∈ List.mergeSort
        (((hash_groups files).filter (fun gr => decide (1 < gr.2.length))).map
          (fun gr =>
            ({ hash := gr.1,
               size := ((gr.2.head?).map (fun f => f.content.length)).getD 0,
               files := gr.2 } : DuplicateGroup)))
        (fun a b => decide (wastedSpace b ≤ wastedSpace a)) := hg
    have hg3 := (List.mergeSort_perm _ _).mem_iff.mp hg2
    rw [List.mem_map] at hg3
    obtain ⟨gr, hgr, rfl⟩ := hg3
    have hlen := (List.mem_filter.mp hgr).2
    rw [decide_eq_true_eq] at hlen
    exact hlen
  · intro files
    unfold find_duplicates
    dsimp only
    exact List.Pairwise.imp (fun h => of_decide_eq_true h)
      (List.sorted_mergeSort htrans htot _)
  · intro c files hlen hc hall
    have hpos : positiveFiles files = files := by
      unfold positiveFiles
      rw [List.filter_eq_self]
      intro f hf
      rw [decide_eq_true_eq, hall f hf]
      exact List.length_pos.mpr hc
    have hne : files ≠ [] := by
      intro h
      rw [h] at hlen
      simp at hlen
    have hkeys : dedupFirst
        ((positiveFiles files).map (fun f => f.content.length)) = [c.length] := by
      rw [hpos]
      apply dedupFirst_const
      · intro h
        rw [List.map_eq_nil_iff] at h
        exact hne h
      · intro x hx
        rw [List.mem_map] at hx
        obtain ⟨f, hf, rfl⟩ := hx
        rw [hall f hf]
    have hbucket : (positiveFiles files).filter
        (fun f => f.content.length == c.length) = files := by
      rw [hpos, List.filter_eq_self]
      intro f hf
      rw [hall f hf]
      exact beq_self_eq_true _
    have hsg : size_groups files = [(c.length, files)] := by
      unfold size_groups
      rw [hkeys]
      simp only [List.map_cons, List.map_nil]
      rw [hbucket]
    have h1 : decide (1 < files.length) = true := by
      rw [decide_eq_true_eq]
      omega
    have hhf : hashedFiles files = files := by
      unfold hashedFiles
      rw [hsg]
      simp [h1]
    have hkeys2 : dedupFirst ((hashedFiles files).map fileHashKey) =
        [hasher_data c] := by
      rw [hhf]
      apply dedupFirst_const
      · intro h
        rw [List.map_eq_nil_iff] at h
        exact hne h
      · intro x hx
        rw [List.mem_map] at hx
        obtain ⟨f, hf, rfl⟩ := hx
        unfold fileHashKey
        rw [hall f hf]
    have hbucket2 : (hashedFiles files).filter
        (fun f => fileHashKey f == hasher_data c) = files := by
      rw [hhf, List.filter_eq_self]
      intro f hf
      unfold fileHashKey
      rw [hall f hf]
      exact beq_self_eq_true _
    have hhg : hash_groups files = [(hasher_data c, files)] := by
      unfold hash_groups
      rw [hkeys2]
      simp only [List.map_cons, List.map_nil]
      rw [hbucket2]
    obtain ⟨f0, rest, rfl⟩ : ∃ f0 rest, files = f0 :: rest := by
      cases files with
      | nil => simp at hlen
      | cons a l => exact ⟨a, l, rfl⟩
    unfold find_duplicates
    dsimp only
    rw [hhg]
    rw [List.filter_cons_of_pos (by exact h1), List.filter_nil]
    simp only [List.map_cons, List.map_nil, List.head?_cons, Option.map_some,
      Option.getD_some]
    rw [List.mergeSort_singleton]
    simp [hall f0 (List.mem_cons_self f0 rest)]
  · intro files hnd hinj
    have hforall : ∀ gr ∈ hash_groups files,
        ¬(decide (1 < gr.2.length) = true) := by
      intro gr hgr
      rw [decide_eq_true_eq]
      unfold hash_groups at hgr
      rw [List.mem_map] at hgr
      obtain ⟨k, hk, rfl⟩ := hgr
      intro hcon
      have hbnd : ((hashedFiles files).filter
          (fun f => fileHashKey f == k)).Nodup :=
        List.Nodup.filter _ (nodup_hashedFiles hnd)
      cases hbc : (hashedFiles files).filter (fun f => fileHashKey f == k) with
      | nil => rw [hbc] at hcon; simp at hcon
      | cons x t =>
        cases t with
        | nil => rw [hbc] at hcon; simp at hcon
        | cons y t2 =>
          rw [hbc] at hbnd
          have hxy : x ≠ y := by
            rcases List.nodup_cons.mp hbnd with ⟨hx, _⟩
            intro he
            exact hx (he ▸ List.mem_cons_self y t2)
          have hxmem : x ∈ (hashedFiles files).filter
              (fun f => fileHashKey f == k) := by
            rw [hbc]
            exact List.mem_cons_self x (y :: t2)
          have hymem : y ∈ (hashedFiles files).filter
              (fun f => fileHashKey f == k) := by
            rw [hbc]
            exact List.mem_cons_of_mem x (List.mem_cons_self y t2)
          have hkx := (List.mem_filter.mp hxmem).2
          have hky := (List.mem_filter.mp hymem).2
          rw [beq_iff_eq] at hkx hky
          exact hxy (hinj x
            (mem_hashedFiles (List.mem_filter.mp hxmem).1)
            y (mem_hashedFiles (List.mem_filter.mp hymem).1)
            (hkx.trans hky.symm))
    unfold find_duplicates
    dsimp only
    rw [List.filter_eq_nil_iff.mpr hforall]
    simp only [List.map_nil]
    exact List.mergeSort_nil

theorem find_duplicates_amended_spec_witness :
    find_duplicates [w4FileA, w4FileB] =
      [{ hash := hasher_data [1, 2, 3], size := 3,
         files := [w4FileA, w4FileB] }] ∧
    find_duplicates [w4FileC, w4FileD] = [] := by
  constructor
  · exact find_duplicates_amended_spec.2.2.1 [1, 2, 3] [w4FileA, w4FileB]
      (by decide) (by decide) (by decide)
  · exact find_duplicates_amended_spec.2.2.2 [w4FileC, w4FileD]
      (by decide) (by decide)

end DesktopDelight
